import Mathlib

/-!
Shallow embedding of the ChatAI-Free-Multimodel core (package `cafm`):
the context manager (`src/cafm/context_manager.py`), the debate engine
(`src/cafm/debate_engine.py`) and the model invocation wrappers
(`src/cafm/ollama_client.py`).  Python strings are Lean `String`
(both count Unicode code points), Python ints are `Int` where a value
can be negative (token limits fed to `sliding_window`) and `Nat`
otherwise, dicts of messages are a `Message` structure, and code that
may raise is modelled with `Option`/`Except`.
-/

namespace Cafm

/-- A chat message: the `{"role": ..., "content": ...}` dict of the source. -/
structure Message where
  role : String
  content : String
deriving Repr, DecidableEq

/-- A debate transcript entry (`DebateEntry.as_dict`):
`{"model": str, "round": int, "content": str}`. -/
structure Entry where
  model : String
  round : Nat
  content : String
deriving Repr, DecidableEq

/-! ## context_manager.py -/

/-- Constant `CHARS_PER_TOKEN = 4`. -/
def CHARS_PER_TOKEN : Nat := 4

/-- `estimate_tokens(text) = max(1, len(text) // CHARS_PER_TOKEN)`. -/
def estimate_tokens (text : String) : Nat :=
  max 1 (text.length / CHARS_PER_TOKEN)

/-- Per-message summand of `estimate_messages_tokens`:
`4 + estimate_tokens(msg.get("content", ""))`. -/
def message_cost (msg : Message) : Nat :=
  4 + estimate_tokens msg.content

/-- `estimate_messages_tokens`: fold of the per-message costs from 0. -/
def estimate_messages_tokens (messages : List Message) : Nat :=
  messages.foldl (fun total msg => total + message_cost msg) 0

/-- One line of `build_transcript`:
`f"[{model} - Round {round}]" + ":\n" + content + "\n"`. -/
def entry_line (e : Entry) : String :=
  "[" ++ e.model ++ " - Round " ++ toString e.round ++ "]" ++ ":\n" ++ e.content ++ "\n"

/-- `build_transcript(entries) = "\n".join(lines)`. -/
def build_transcript (entries : List Entry) : String :=
  String.intercalate "\n" (entries.map entry_line)

/-- The backwards walk of `sliding_window` over `reversed(rest)`:
stops at the first message whose cost overruns the remaining budget.
The Python loop builds `included` by `insert(0, msg)`, so the chronological
result is the reverse of what this walk collects. -/
def walk_back : Int → List Message → List Message
  | _, [] => []
  | budget, msg :: rest =>
    if budget - (estimate_messages_tokens [msg] : Int) < 0 then []
    else msg :: walk_back (budget - (estimate_messages_tokens [msg] : Int)) rest

/-- `sliding_window(messages, limit)`: keep the first two messages, then as
many recent ones as fit in `limit` minus the reserved cost minus a 64-token
safety margin. -/
def sliding_window (messages : List Message) (limit : Int) : List Message :=
  if messages = [] then messages
  else
    let reserved := messages.take 2
    let rest := messages.drop 2
    let budget : Int := limit - (estimate_messages_tokens reserved : Int) - 64
    if budget ≤ 0 then reserved
    else reserved ++ (walk_back budget rest.reverse).reverse

/-- Truncation marker used by the `summarize_transcript` fallback. -/
def TRUNC_MARKER : String := "…[earlier transcript truncated]…\n"

/-- Python `s[-n:]`: the last `n` characters when `n > 0`, but the whole
string when `n = 0`, since `-0` is `0` and `s[0:]` is `s`. -/
def str_tail (s : String) (n : Nat) : String :=
  if n = 0 then s else s.drop (s.length - n)

/-- System content of the summarization prompt in `summarize_transcript`. -/
def SUMMARY_SYSTEM : String :=
  "You are a concise summarizer. Compress the following debate " ++
  "transcript into a brief summary that preserves every key argument, " ++
  "point of agreement, and point of contention. Use bullet points."

/-- `summarize_transcript(entries, summary_func, limit)`.  The callable
`summary_func` may raise; this is modelled by `Option String` (`none` is a
raised exception).  On failure the raw transcript is tail-truncated to
`limit * CHARS_PER_TOKEN` characters behind a marker. -/
def summarize_transcript (entries : List Entry)
    (summary_func : List Message → Option String) (limit : Nat) : String :=
  let full := build_transcript entries
  let prompt_messages : List Message :=
    [⟨"system", SUMMARY_SYSTEM⟩, ⟨"user", full⟩]
  match summary_func prompt_messages with
  | some summary => summary
  | none =>
    let max_chars := limit * CHARS_PER_TOKEN
    if full.length > max_chars then TRUNC_MARKER ++ str_tail full max_chars
    else full

/-- The naive message list built at the top of `prepare_messages`:
system prompt, framed user query, and one transcript block iff the
transcript is non-empty. -/
def naive_messages (system_prompt user_query : String)
    (transcript_entries : List Entry) : List Message :=
  let base : List Message :=
    [⟨"system", system_prompt⟩, ⟨"user", "User Query: " ++ user_query⟩]
  if transcript_entries = [] then base
  else base ++
    [⟨"user", "Debate transcript so far:\n\n" ++ build_transcript transcript_entries⟩]

/-- `prepare_messages(...)`: return the naive composition when it fits the
budget, otherwise summarize (when configured and a summarizer exists) and
fall through to `sliding_window` on the current message list. -/
def prepare_messages (system_prompt user_query : String)
    (transcript_entries : List Entry) (context_limit : Nat) (strategy : String)
    (summary_func : Option (List Message → Option String)) : List Message :=
  let messages := naive_messages system_prompt user_query transcript_entries
  let total := estimate_messages_tokens messages
  if total ≤ context_limit then messages
  else
    if strategy = "summary" then
      match summary_func with
      | some f =>
        let summary := summarize_transcript transcript_entries f (context_limit / 2)
        let messages2 : List Message :=
          [⟨"system", system_prompt⟩,
           ⟨"user", "User Query: " ++ user_query⟩,
           ⟨"user", "Condensed debate summary:\n\n" ++ summary⟩]
        if estimate_messages_tokens messages2 ≤ context_limit then messages2
        else sliding_window messages2 (context_limit : Int)
      | none => sliding_window messages (context_limit : Int)
    else sliding_window messages (context_limit : Int)

/-! ## debate_engine.py — language detector

The detector counts the non-overlapping matches of the regex
`[áéíóúüñ¿¡]|\b(que|está|...|si)\b` with `re.IGNORECASE` and classifies
as Spanish when the count reaches 2.  The scan below mirrors the regex
engine: leftmost match, the character class tried before the word
alternation, words tried in pattern order, `\b` checked on both sides of
a word.  Case folding and `\w` are modelled over the alphabet the
pattern involves (ASCII plus the Spanish accented letters). -/

/-- Case folding for the `re.IGNORECASE` flag: ASCII letters plus the
uppercase accented letters of the pattern (each is lowercase + 0x20). -/
def span_lower (c : Char) : Char :=
  if 65 ≤ c.toNat ∧ c.toNat ≤ 90 then Char.ofNat (c.toNat + 32)
  else if c = 'Á' ∨ c = 'É' ∨ c = 'Í' ∨ c = 'Ó' ∨ c = 'Ú' ∨ c = 'Ü' ∨ c = 'Ñ' then
    Char.ofNat (c.toNat + 32)
  else c

/-- The character-class alternative `[áéíóúüñ¿¡]` (case-insensitive). -/
def is_diacritic (c : Char) : Bool :=
  span_lower c ∈ ['á', 'é', 'í', 'ó', 'ú', 'ü', 'ñ', '¿', '¡']

/-- Word character for `\b`, over the alphabet of the pattern: ASCII
alphanumerics, underscore, and the accented Spanish letters. -/
def is_word_char (c : Char) : Bool :=
  (('a' ≤ c ∧ c ≤ 'z') ∨ ('A' ≤ c ∧ c ≤ 'Z') ∨ ('0' ≤ c ∧ c ≤ '9') ∨ c = '_')
  ∨ span_lower c ∈ ['á', 'é', 'í', 'ó', 'ú', 'ü', 'ñ']

/-- The word alternation of `_SPANISH_RE`, in pattern order. -/
def SPANISH_WORDS : List (List Char) :=
  ["que", "está", "es", "en", "de", "la", "el", "los", "las", "con", "por",
   "para", "una", "uno", "pero", "como", "más", "también", "sobre", "muy",
   "tiene", "hacer", "qué", "cómo", "cuál", "esto", "eso", "son", "hay",
   "si"].map String.toList

/-- Trailing `\b` after a word match: end of input or a non-word character. -/
def boundary_after (tl : List Char) : Bool :=
  match tl with
  | [] => true
  | c :: _ => !is_word_char c

/-- Try the word alternatives in pattern order at the current position:
the first whose letters match case-insensitively and whose trailing `\b`
holds wins (the regex engine backtracks through the alternation). -/
def try_words : List (List Char) → List Char → Option (List Char)
  | [], _ => none
  | w :: ws, tl =>
    if (tl.take w.length).map span_lower = w ∧ boundary_after (tl.drop w.length) = true
    then some w
    else try_words ws tl

/-- Non-overlapping scan of the combined pattern, as `findall` performs it.
`prev_word` records whether the previous character is a word character
(that is all `\b` needs).  The fuel argument makes the recursion
structural; any fuel ≥ the character count gives the full scan since
every step consumes at least one character. -/
def spanish_scan : Nat → Bool → List Char → Nat
  | 0, _, _ => 0
  | _, _, [] => 0
  | fuel + 1, prev_word, c :: rest =>
    if is_diacritic c then 1 + spanish_scan fuel (is_word_char c) rest
    else if !prev_word then
      match try_words SPANISH_WORDS (c :: rest) with
      | some w => 1 + spanish_scan fuel true (rest.drop (w.length - 1))
      | none => spanish_scan fuel (is_word_char c) rest
    else spanish_scan fuel (is_word_char c) rest

/-- `len(_SPANISH_RE.findall(text))`. -/
def spanish_match_count (text : String) : Nat :=
  spanish_scan text.length false text.toList

/-- `detect_language(text)`: Spanish when at least two pattern matches. -/
def detect_language (text : String) : String :=
  if 2 ≤ spanish_match_count text then "Spanish" else "English"

/-- Modelled from the spec claim wording for comparison: the number of
Spanish diacritic characters occurring in the text. -/
def spec_diacritic_count (text : String) : Nat :=
  (text.toList.filter is_diacritic).length

/-- Modelled from the spec claim wording for comparison: positions where a
whole word from the Spanish list matches case-insensitively (a word
boundary on both sides), counted independently of the diacritics. -/
def spec_word_count_aux : Bool → List Char → Nat
  | _, [] => 0
  | prev_word, c :: rest =>
    (if !prev_word ∧ (try_words SPANISH_WORDS (c :: rest)).isSome then 1 else 0)
      + spec_word_count_aux (is_word_char c) rest

/-- Modelled from the spec claim wording: diacritic count plus whole-word
match count, the quantity the claim compares against the threshold 2. -/
def spec_spanish_score (text : String) : Nat :=
  spec_diacritic_count text + spec_word_count_aux false text.toList

/-! ## debate_engine.py — orchestration -/

/-- The run configuration fields `DebateEngine.run` reads from
`ConfigManager`. -/
structure Config where
  models : List String
  rounds : Nat
  instances : Nat
  context_limit : Nat
  strategy : String
  skeptic_agent : Bool
  prompts : List (String × String)

/-- Python `dict.get(key, default)` on the system-prompt mapping. -/
def prompt_get (prompts : List (String × String)) (key default : String) : String :=
  (prompts.lookup key).getD default

/-- Line 80: `skeptic = self.config.skeptic_agent and n_instances > 1`. -/
def skeptic_active (cfg : Config) : Bool :=
  cfg.skeptic_agent && decide (1 < cfg.instances)

/-- Lines 81 and 110: the turn at agent index `idx` is the skeptic iff the
skeptic is active and `idx == n_instances - 1`. -/
def is_skeptic_turn (cfg : Config) (idx : Nat) : Bool :=
  skeptic_active cfg && decide (idx = cfg.instances - 1)

/-- The prompt-selection chain of lines 112-119. -/
def select_prompt (prompts : List (String × String)) (is_sk is_first : Bool) : String :=
  if is_sk && is_first then
    prompt_get prompts "skeptic_initial_round" (prompt_get prompts "skeptic_round" "")
  else if is_sk then
    prompt_get prompts "skeptic_round" (prompt_get prompts "debate_round" "")
  else if is_first then
    prompt_get prompts "initial_round" ""
  else
    prompt_get prompts "debate_round" ""

/-- The language directive appended to every system prompt. -/
def lang_note_for (language : String) : String :=
  "\n\nIMPORTANT: You MUST respond ENTIRELY in " ++ language ++ ". " ++
  "Do not switch languages under any circumstances."

/-- One agent turn of the inner loop (lines 108-134): select the prompt,
compose messages from the running transcript, invoke the model, append the
entry.  `gen` abstracts `_generate` (the Model Invocation Port plus
display); `models[idx]` is totalized with a default since the source
inherits undefined indexing when `instances > len(models)`. -/
def agent_turn (cfg : Config) (gen : String → List Message → String)
    (sfn : Option (List Message → Option String))
    (query ln : String) (rnd idx : Nat) (transcript : List Entry) : List Entry :=
  let model := cfg.models.getD idx ""
  let sp := select_prompt cfg.prompts (is_skeptic_turn cfg idx) (decide (rnd = 1))
  let messages := prepare_messages (sp ++ ln) query transcript cfg.context_limit cfg.strategy sfn
  let content := gen model messages
  transcript ++ [⟨model, rnd, content⟩]

/-- One debate round: every agent index in ascending order. -/
def run_round (cfg : Config) (gen : String → List Message → String)
    (sfn : Option (List Message → Option String))
    (query ln : String) (rnd : Nat) (transcript : List Entry) : List Entry :=
  (List.range cfg.instances).foldl
    (fun t idx => agent_turn cfg gen sfn query ln rnd idx t) transcript

/-- `DebateEngine.run(query)`: clear the transcript (the prior session
state is discarded), run every round, then the single synthesis turn with
the first configured model and round number `rounds + 1`; return the
final transcript and the synthesis content. -/
def run (cfg : Config) (gen : String → List Message → String)
    (sfn : Option (List Message → Option String)) (query : String)
    (_prior : List Entry) : List Entry × String :=
  let ln := lang_note_for (detect_language query)
  let transcript := (List.range cfg.rounds).foldl
    (fun t r => run_round cfg gen sfn query ln (r + 1) t) ([] : List Entry)
  let synth_prompt := prompt_get cfg.prompts "final_synthesis" "" ++ ln
  let final_model := cfg.models.getD 0 ""
  let messages := prepare_messages synth_prompt query transcript cfg.context_limit cfg.strategy sfn
  let final_content := gen final_model messages
  (transcript ++ [⟨final_model, cfg.rounds + 1, final_content⟩], final_content)

/-! ## ollama_client.py

The backend call `ollama.chat` is external; it is modelled as a function
the wrappers receive.  A synchronous call either returns a response or
raises (`Except String` with the exception text); a response is
`resp.get("message", {}).get("content", "")`, modelled as
`Option (Option String)` (message key present, content key present).
A streaming call delivers some chunks and may then raise. -/

/-- The chunk/response content extraction `.get("message", {}).get("content", "")`. -/
def resp_content (resp : Option (Option String)) : String :=
  (resp.getD none).getD ""

/-- Behaviour of one streaming backend call: the chunks the iterator
yields before finishing, and the exception it raises instead of
terminating normally, if any. -/
structure StreamBehavior where
  chunks : List (Option (Option String))
  raised : Option String

/-- `chat_sync(model, messages, context_limit)`: returns the response
content, or the diagnostic error text when the backend raises. -/
def chat_sync (backend : String → List Message → Nat → Except String (Option (Option String)))
    (model : String) (messages : List Message) (context_limit : Nat) : String :=
  match backend model messages context_limit with
  | Except.ok resp => resp_content resp
  | Except.error exc => "[ERROR] Model " ++ model ++ " failed: " ++ exc

/-- `chat_stream(model, messages, context_limit)`: yields every non-empty
chunk content; when the backend raises (before or during iteration) it
yields one diagnostic error fragment instead of propagating. -/
def chat_stream (backend : String → List Message → Nat → StreamBehavior)
    (model : String) (messages : List Message) (context_limit : Nat) : List String :=
  let b := backend model messages context_limit
  let toks := (b.chunks.map resp_content).filter (fun t => t ≠ "")
  match b.raised with
  | none => toks
  | some exc => toks ++ ["\n[ERROR] Model " ++ model ++ " failed: " ++ exc ++ "\n"]

/-! ## spec-side definitions and concrete objects used by the theorems -/

/-- Modelled from the spec claim wording for comparison: per-fragment cost
`ceil(character_length / K) + per_message_overhead` with `K = 4` and
overhead 4. -/
def spec_fragment_cost (text : String) : Nat :=
  (text.length + CHARS_PER_TOKEN - 1) / CHARS_PER_TOKEN + 4

/-- Shape of a transcript entry: the pair (model, round number), the part
of a run whose structure is configuration-determined. -/
def turn_shape (e : Entry) : String × Nat :=
  (e.model, e.round)

/-- Demo message: a system fragment. -/
def mA : Message := ⟨"system", "instructions here"⟩

/-- Demo message: the framed user query. -/
def mB : Message := ⟨"user", "User Query: hi"⟩

/-- Demo message: an older transcript fragment. -/
def mC : Message := ⟨"user", "an older debate turn"⟩

/-- Demo message: the newest transcript fragment. -/
def mD : Message := ⟨"user", "the newest debate turn"⟩

/-- Demo transcript entry. -/
def eDemo : Entry := ⟨"m", 1, "0123456789"⟩

/-- Default message used with `List.getD` when naming a list element. -/
def dmsg : Message := ⟨"", ""⟩

/-- Demo run configuration: two agents, one round, skeptic off. -/
def demo_cfg : Config :=
  { models := ["modelA", "modelB"]
    rounds := 1
    instances := 2
    context_limit := 4096
    strategy := "sliding_window"
    skeptic_agent := false
    prompts := [] }

/-- Demo run configuration with a skeptic and a full prompt table. -/
def skeptic_cfg : Config :=
  { models := ["modelA", "modelB", "modelC", "modelD"]
    rounds := 2
    instances := 4
    context_limit := 4096
    strategy := "sliding_window"
    skeptic_agent := true
    prompts := [("initial_round", "I"), ("debate_round", "D"),
                ("skeptic_round", "S"), ("skeptic_initial_round", "SI"),
                ("final_synthesis", "F")] }

/-- Demo generation function standing for the model backend. -/
def demo_gen : String → List Message → String :=
  fun model _ => model ++ "-answer"

/-- Demo synchronous backend that always raises. -/
def err_backend : String → List Message → Nat → Except String (Option (Option String)) :=
  fun _ _ _ => Except.error "boom"

/-- Demo streaming backend that delivers one chunk and then raises. -/
def err_sbackend : String → List Message → Nat → StreamBehavior :=
  fun _ _ _ => ⟨[some (some "partial")], some "boom"⟩

/-! ## Helper lemmas -/

theorem foldl_add_cost (l : List Message) (a : Nat) :
    l.foldl (fun t m => t + message_cost m) a = a + (l.map message_cost).sum := by
  induction l generalizing a with
  | nil => simp
  | cons m t ih => simp [ih, add_assoc]

theorem emt_eq_sum (l : List Message) :
    estimate_messages_tokens l = (l.map message_cost).sum := by
  simp [estimate_messages_tokens, foldl_add_cost]

theorem emt_singleton (m : Message) :
    estimate_messages_tokens [m] = message_cost m := by
  simp [emt_eq_sum]

theorem emt_cons (m : Message) (l : List Message) :
    estimate_messages_tokens (m :: l) = message_cost m + estimate_messages_tokens l := by
  simp [emt_eq_sum]

theorem message_cost_ge (m : Message) : 5 ≤ message_cost m := by
  have h := le_max_left 1 (m.content.length / CHARS_PER_TOKEN)
  unfold message_cost estimate_tokens
  omega

theorem string_length_drop (s : String) (n : Nat) : (s.drop n).length = s.length - n := by
  rw [String.drop_eq]
  show (s.data.drop n).length = s.data.length - n
  simp

theorem walk_back_nil_of_small_budget (budget : Int) (hb : budget < 5) (l : List Message) :
    walk_back budget l = [] := by
  cases l with
  | nil => rfl
  | cons m t =>
    unfold walk_back
    rw [if_pos]
    have h5 : (5 : Int) ≤ (estimate_messages_tokens [m] : Int) := by
      exact_mod_cast (emt_singleton m ▸ message_cost_ge m)
    omega

/-! ## Claims C3 and C10 — the token estimator -/

/-- C3, counterexample: at a five-character fragment the per-fragment
estimate of the budgeter is 5 = 4 + max(1, 5 div 4), not the
6 = ceil(5 / 4) + 4 the claim states. -/
theorem c3_ceil_cost_cex :
    estimate_messages_tokens [Message.mk "user" "abcde"] = 5 ∧
    spec_fragment_cost "abcde" = 6 ∧
    estimate_messages_tokens [Message.mk "user" "abcde"] ≠ spec_fragment_cost "abcde" := by
  refine ⟨by decide, by decide, by decide⟩

/-- C3, amended: a fragment's estimated cost is `4 + max 1 (length / 4)`
(floor division with a floor of one token for the content, plus the fixed
per-message overhead of 4), and the cost of a message list is the sum of
the per-fragment costs. -/
theorem c3_token_estimate :
    (∀ msg : Message,
      estimate_messages_tokens [msg] = 4 + max 1 (msg.content.length / 4)) ∧
    (∀ l : List Message,
      estimate_messages_tokens l =
        (l.map (fun m => 4 + max 1 (m.content.length / 4))).sum) := by
  constructor
  · intro msg
    rw [emt_singleton]
    rfl
  · intro l
    rw [emt_eq_sum]
    rfl

/-- C10: every fragment costs at least 5 estimated tokens (overhead 4 plus
a floor of 1 for content), a list costs at least 5 per message and costs 0
only when empty, and a remaining budget below 5 admits no fragment beyond
the reserved pair in `sliding_window`. -/
theorem c10_min_cost :
    (∀ msg : Message, 5 ≤ estimate_messages_tokens [msg]) ∧
    (∀ l : List Message, 5 * l.length ≤ estimate_messages_tokens l) ∧
    (∀ l : List Message, estimate_messages_tokens l = 0 ↔ l = []) ∧
    (∀ (msgs : List Message) (limit : Int),
      limit - (estimate_messages_tokens (msgs.take 2) : Int) - 64 < 5 →
      sliding_window msgs limit = msgs.take 2) := by
  refine ⟨?_, ?_, ?_, ?_⟩
  · intro msg
    rw [emt_singleton]
    exact message_cost_ge msg
  · intro l
    induction l with
    | nil => simp [estimate_messages_tokens]
    | cons m t ih =>
      rw [emt_cons]
      have := message_cost_ge m
      simp only [List.length_cons]
      omega
  · intro l
    cases l with
    | nil => simp [estimate_messages_tokens]
    | cons m t =>
      rw [emt_cons]
      have := message_cost_ge m
      simp only [iff_false, List.cons_ne_nil]
      omega
  · intro msgs limit hlim
    by_cases hm : msgs = []
    · subst hm
      simp [sliding_window]
    · unfold sliding_window
      rw [if_neg hm]
      by_cases hb : limit - (estimate_messages_tokens (msgs.take 2) : Int) - 64 ≤ 0
      · simp only [hb, if_pos]
      · rw [if_neg hb]
        rw [walk_back_nil_of_small_budget _ (by omega)]
        simp

/-- C10, witness: with a remaining budget below five tokens the window is
exactly the two reserved fragments. -/
theorem c10_min_cost_witness :
    sliding_window [mA, mB, mC, mD] 80 = [mA, mB, mC, mD].take 2 :=
  c10_min_cost.2.2.2 [mA, mB, mC, mD] 80 (by decide)

/-! ## Claim C4 — reserved fragments of the recency window -/

/-- C4: for a list of at least two fragments and any integer limit
(including zero and negative values), `sliding_window` keeps the first two
input fragments unmodified as its first two elements, and when the
reserved fragments alone exhaust the budget the result is exactly those
two fragments. -/
theorem c4_reserved_retained (msgs : List Message) (limit : Int) (h2 : 2 ≤ msgs.length) :
    (sliding_window msgs limit).take 2 = msgs.take 2 ∧
    (limit - (estimate_messages_tokens (msgs.take 2) : Int) - 64 ≤ 0 →
      sliding_window msgs limit = msgs.take 2) := by
  have hm : msgs ≠ [] := by
    intro h
    subst h
    simp at h2
  have hlen : (msgs.take 2).length = 2 := by
    rw [List.length_take]
    omega
  unfold sliding_window
  rw [if_neg hm]
  by_cases hb : limit - (estimate_messages_tokens (msgs.take 2) : Int) - 64 ≤ 0
  · simp only [hb, if_pos]
    exact ⟨by simp [List.take_take], by trivial⟩
  · rw [if_neg hb]
    refine ⟨?_, fun hb2 => absurd hb2 hb⟩
    rw [List.take_append_eq_append_take, hlen]
    simp [List.take_take]

/-- C4, witness: with a zero limit the first two fragments survive. -/
theorem c4_reserved_retained_witness :
    (sliding_window [mA, mB, mC, mD] 0).take 2 = [mA, mB, mC, mD].take 2 :=
  (c4_reserved_retained [mA, mB, mC, mD] 0 (by decide)).1

/-! ## Claim C6 — happy path of prepare_messages -/

/-- C6: whenever the naive composition already fits the budget,
`prepare_messages` returns it unmodified, for every strategy and every
summarizer — so neither the budgeter nor the summarizer can influence the
result. -/
theorem c6_happy_path (sp q : String) (ts : List Entry) (cl : Nat) (strat : String)
    (sfn : Option (List Message → Option String))
    (h : estimate_messages_tokens (naive_messages sp q ts) ≤ cl) :
    prepare_messages sp q ts cl strat sfn = naive_messages sp q ts := by
  simp only [prepare_messages]
  rw [if_pos h]

/-- C6, witness: a short composition is returned as-is even under the
summary strategy with no summarizer. -/
theorem c6_happy_path_witness :
    prepare_messages "s" "q" [] 100 "summary" none = naive_messages "s" "q" [] :=
  c6_happy_path "s" "q" [] 100 "summary" none (by decide)

/-! ## Claim C7 — summarization fallback -/

/-- C7, counterexample: with an empty transcript and a failing summarizer
at limit 1, the fallback returns the rendered transcript itself, not the
marker-prefixed truncation the claim states for every failure. -/
theorem c7_marker_cex :
    summarize_transcript [] (fun _ => none) 1 = "" ∧
    summarize_transcript [] (fun _ => none) 1 ≠
      TRUNC_MARKER ++ str_tail (build_transcript []) (1 * CHARS_PER_TOKEN) := by
  exact ⟨by decide, by decide⟩

/-- C7, amended: for every limit L ≥ 1, when the summarization call
raises, the fallback returns the rendered transcript unchanged if it fits
in `L * 4` characters and otherwise its last `L * 4` characters behind the
truncation marker; in both cases the result never exceeds `L * 4` plus
the marker's length, and no error propagates. -/
theorem c7_summary_fallback (entries : List Entry) (sfn : List Message → Option String)
    (L : Nat) (hL : 1 ≤ L) (hfail : ∀ ms, sfn ms = none) :
    summarize_transcript entries sfn L =
      (if (build_transcript entries).length > L * CHARS_PER_TOKEN
       then TRUNC_MARKER ++ str_tail (build_transcript entries) (L * CHARS_PER_TOKEN)
       else build_transcript entries) ∧
    (summarize_transcript entries sfn L).length ≤ L * CHARS_PER_TOKEN + TRUNC_MARKER.length := by
  have h1 : summarize_transcript entries sfn L =
      (if (build_transcript entries).length > L * CHARS_PER_TOKEN
       then TRUNC_MARKER ++ str_tail (build_transcript entries) (L * CHARS_PER_TOKEN)
       else build_transcript entries) := by
    unfold summarize_transcript
    simp only [hfail]
  refine ⟨h1, ?_⟩
  rw [h1]
  have h4 : CHARS_PER_TOKEN = 4 := rfl
  rw [h4]
  split
  · rename_i hgt
    rw [String.length_append]
    unfold str_tail
    rw [if_neg (by omega)]
    rw [string_length_drop]
    omega
  · rename_i hle
    omega

/-- C7, witness: a ten-character transcript entry under a failing
summarizer at limit 1 stays within the bound. -/
theorem c7_summary_fallback_witness :
    (summarize_transcript [eDemo] (fun _ => none) 1).length ≤
      1 * CHARS_PER_TOKEN + TRUNC_MARKER.length :=
  (c7_summary_fallback [eDemo] (fun _ => none) 1 (by decide) (fun _ => rfl)).2

/-! ## Claim C8 — the model invocation wrappers never propagate faults -/

/-- C8: `chat_sync` returns the response content on success and the
diagnostic error text naming the model when the backend raises;
`chat_stream` under a raising backend yields the delivered tokens followed
by one diagnostic error fragment instead of faulting. -/
theorem c8_port_never_faults
    (backend : String → List Message → Nat → Except String (Option (Option String)))
    (sbackend : String → List Message → Nat → StreamBehavior)
    (model : String) (messages : List Message) (cl : Nat) (exc : String) :
    (backend model messages cl = Except.error exc →
      chat_sync backend model messages cl = "[ERROR] Model " ++ model ++ " failed: " ++ exc) ∧
    (∀ resp, backend model messages cl = Except.ok resp →
      chat_sync backend model messages cl = resp_content resp) ∧
    ((sbackend model messages cl).raised = some exc →
      chat_stream sbackend model messages cl =
        ((sbackend model messages cl).chunks.map resp_content).filter (fun t => t ≠ "") ++
          ["\n[ERROR] Model " ++ model ++ " failed: " ++ exc ++ "\n"]) := by
  refine ⟨fun h => ?_, fun resp h => ?_, fun h => ?_⟩
  · unfold chat_sync
    rw [h]
  · unfold chat_sync
    rw [h]
  · simp only [chat_stream]
    rw [h]

/-- C8, witness: a backend that raises produces the diagnostic text. -/
theorem c8_port_never_faults_witness :
    chat_sync err_backend "m" [] 0 = "[ERROR] Model " ++ "m" ++ " failed: " ++ "boom" :=
  (c8_port_never_faults err_backend err_sbackend "m" [] 0 "boom").1 rfl

/-! ## Claim C9 — the language detector -/

/-- C9, counterexample: on `"está"` the diacritic count (1) plus the
whole-word match count (1) reaches the threshold 2, yet the detector
classifies English — the regex counts non-overlapping matches, so the word
match subsumes the diacritic inside it. -/
theorem c9_score_cex :
    2 ≤ spec_spanish_score "está" ∧ detect_language "está" = "English" := by
  exact ⟨by decide, by decide⟩

/-- C9, amended: the detector is total into Spanish/English and returns
Spanish exactly when the count of non-overlapping matches of the combined
pattern (a diacritic character, or a whole word of the Spanish list with a
matched word consuming the diacritics it contains) reaches 2; the two
reference inputs classify as stated. -/
theorem c9_language_detector :
    (∀ text : String, detect_language text = "Spanish" ∨ detect_language text = "English") ∧
    (∀ text : String, detect_language text = "Spanish" ↔ 2 ≤ spanish_match_count text) ∧
    detect_language "¿Qué es esto y por qué?" = "Spanish" ∧
    detect_language "What is this and why?" = "English" := by
  refine ⟨?_, ?_, by decide, by decide⟩
  · intro text
    unfold detect_language
    split
    · exact Or.inl rfl
    · exact Or.inr rfl
  · intro text
    unfold detect_language
    split
    · rename_i h
      simp [h]
    · rename_i h
      simp [h]

/-! ## Claim C2 — role assignment and prompt variants -/

/-- C2: a turn is the skeptic iff the skeptic setting is on, more than one
agent is configured, and the agent index is the last one; with the setting
off no agent is ever the skeptic; and when the prompt table has all four
variants the selection chain resolves exactly by the (role, first round)
pair. -/
theorem c2_role_assignment (cfg : Config) (idx : Nat) (ski skr ini dbr : String)
    (hski : cfg.prompts.lookup "skeptic_initial_round" = some ski)
    (hskr : cfg.prompts.lookup "skeptic_round" = some skr)
    (hini : cfg.prompts.lookup "initial_round" = some ini)
    (hdbr : cfg.prompts.lookup "debate_round" = some dbr) :
    (is_skeptic_turn cfg idx = true ↔
      (cfg.skeptic_agent = true ∧ 1 < cfg.instances ∧ idx = cfg.instances - 1)) ∧
    (cfg.skeptic_agent = false → ∀ j, is_skeptic_turn cfg j = false) ∧
    (∀ rnd : Nat,
      select_prompt cfg.prompts (is_skeptic_turn cfg idx) (decide (rnd = 1)) =
        if is_skeptic_turn cfg idx then (if rnd = 1 then ski else skr)
        else (if rnd = 1 then ini else dbr)) := by
  refine ⟨?_, ?_, ?_⟩
  · simp [is_skeptic_turn, skeptic_active, and_assoc]
  · intro h j
    simp [is_skeptic_turn, skeptic_active, h]
  · intro rnd
    cases hsk : is_skeptic_turn cfg idx <;>
      by_cases hr : rnd = 1 <;>
        simp [select_prompt, prompt_get, hsk, hr, hski, hskr, hini, hdbr]

/-- C2, witness: in the demo skeptic configuration, agent index 3 in round
2 receives the skeptic follow-up prompt. -/
theorem c2_role_assignment_witness :
    select_prompt skeptic_cfg.prompts (is_skeptic_turn skeptic_cfg 3) (decide (2 = 1)) =
      if is_skeptic_turn skeptic_cfg 3 then (if 2 = 1 then "SI" else "S")
      else (if 2 = 1 then "I" else "D") :=
  (c2_role_assignment skeptic_cfg 3 "SI" "S" "I" "D"
    (by decide) (by decide) (by decide) (by decide)).2.2 2

/-! ## Claim C5 — the recency window is a contiguous suffix -/

theorem walk_back_take (budget : Int) (l : List Message) :
    ∃ m, m ≤ l.length ∧ walk_back budget l = l.take m ∧
      (m < l.length →
        budget - (((l.take m).map message_cost).sum : Int)
          - (message_cost (l.getD m dmsg) : Int) < 0) := by
  induction l generalizing budget with
  | nil =>
    refine ⟨0, by simp, by simp [walk_back], ?_⟩
    intro h
    simp at h
  | cons msg rest ih =>
    by_cases hb : budget - (estimate_messages_tokens [msg] : Int) < 0
    · refine ⟨0, by simp, ?_, ?_⟩
      · simp only [walk_back]
        rw [if_pos hb]
        rfl
      · intro _
        have hb' : budget - (message_cost msg : Int) < 0 := by
          rwa [emt_singleton] at hb
        simpa using hb'
    · obtain ⟨m, hm, heq, hcond⟩ := ih (budget - (estimate_messages_tokens [msg] : Int))
      refine ⟨m + 1, ?_, ?_, ?_⟩
      · simp only [List.length_cons]
        omega
      · simp only [walk_back]
        rw [if_neg hb, heq]
        rfl
      · intro h
        have h' : m < rest.length := by
          simp only [List.length_cons] at h
          omega
        have hc := hcond h'
        rw [emt_singleton] at hc
        simp only [List.take_succ_cons, List.map_cons, List.sum_cons, List.getD_cons_succ]
        rw [Nat.cast_add]
        omega

/-- C5: beyond the two reserved fragments, `sliding_window` returns
exactly a contiguous suffix of the non-reserved input fragments, in their
original order and unmodified; and when the budget is positive and some
fragment is excluded, the most recent excluded fragment would overflow the
budget remaining after the included suffix — the backward walk stops at
the first overflow. -/
theorem c5_suffix_window (msgs : List Message) (limit : Int) (h2 : 2 ≤ msgs.length) :
    ∃ k, k ≤ (msgs.drop 2).length ∧
      sliding_window msgs limit = msgs.take 2 ++ (msgs.drop 2).drop k ∧
      (0 < limit - (estimate_messages_tokens (msgs.take 2) : Int) - 64 → 0 < k →
        limit - (estimate_messages_tokens (msgs.take 2) : Int) - 64
          - ((((msgs.drop 2).drop k).map message_cost).sum : Int)
          - (message_cost ((msgs.drop 2).getD (k - 1) dmsg) : Int) < 0) := by
  have hm : msgs ≠ [] := by
    intro h
    subst h
    simp at h2
  unfold sliding_window
  rw [if_neg hm]
  by_cases hb : limit - (estimate_messages_tokens (msgs.take 2) : Int) - 64 ≤ 0
  · refine ⟨(msgs.drop 2).length, le_refl _, ?_, ?_⟩
    · simp only [hb, if_pos]
      simp
      omega
    · intro hpos _
      omega
  · rw [if_neg hb]
    obtain ⟨m, hm', heq, hcond⟩ := walk_back_take
      (limit - (estimate_messages_tokens (msgs.take 2) : Int) - 64) (msgs.drop 2).reverse
    have hmlen : m ≤ (msgs.drop 2).length := by simpa using hm'
    refine ⟨(msgs.drop 2).length - m, by omega, ?_, ?_⟩
    · rw [heq]
      congr 1
      rw [← List.rtake_eq_reverse_take_reverse]
      rfl
    · intro hpos hk
      have hmlt : m < (msgs.drop 2).length := by omega
      have hrev : m < (msgs.drop 2).reverse.length := by simpa using hmlt
      have hc := hcond (by simpa using hmlt)
      have hsum : (((msgs.drop 2).reverse.take m).map message_cost).sum =
          ((((msgs.drop 2).drop ((msgs.drop 2).length - m)).map message_cost).sum) := by
        have hrt : (msgs.drop 2).reverse.take m = ((msgs.drop 2).rtake m).reverse := by
          rw [List.rtake_eq_reverse_take_reverse, List.reverse_reverse]
        rw [hrt, List.map_reverse, List.sum_reverse]
        rfl
      have hget : (msgs.drop 2).reverse.getD m dmsg =
          (msgs.drop 2).getD ((msgs.drop 2).length - 1 - m) dmsg := by
        rw [List.getD_eq_getElem _ _ hrev,
          List.getD_eq_getElem _ _ (by omega : (msgs.drop 2).length - 1 - m < (msgs.drop 2).length)]
        rw [List.getElem_reverse]
      rw [hsum, hget] at hc
      have hidx : (msgs.drop 2).length - m - 1 = (msgs.drop 2).length - 1 - m := by omega
      rw [hidx]
      exact hc

/-- C5, witness: at limit 80 the demo list keeps the reserved pair and the
single newest fragment — the suffix with k = 1. -/
theorem c5_suffix_window_witness :
    ∃ k, k ≤ ([mA, mB, mC, mD].drop 2).length ∧
      sliding_window [mA, mB, mC, mD] 80 =
        [mA, mB, mC, mD].take 2 ++ ([mA, mB, mC, mD].drop 2).drop k ∧
      (0 < 80 - (estimate_messages_tokens ([mA, mB, mC, mD].take 2) : Int) - 64 → 0 < k →
        80 - (estimate_messages_tokens ([mA, mB, mC, mD].take 2) : Int) - 64
          - (((([mA, mB, mC, mD].drop 2).drop k).map message_cost).sum : Int)
          - (message_cost (([mA, mB, mC, mD].drop 2).getD (k - 1) dmsg) : Int) < 0) :=
  c5_suffix_window [mA, mB, mC, mD] 80 (by decide)

/-! ## Claim C1 — run structure -/

theorem agent_turn_shape (cfg : Config) (gen : String → List Message → String)
    (sfn : Option (List Message → Option String)) (q ln : String) (rnd idx : Nat)
    (t : List Entry) :
    (agent_turn cfg gen sfn q ln rnd idx t).map turn_shape =
      t.map turn_shape ++ [(cfg.models.getD idx "", rnd)] := by
  simp [agent_turn, turn_shape]

theorem foldl_shape {α : Type} (f : List Entry → α → List Entry) (g : α → List (String × Nat))
    (hf : ∀ t a, (f t a).map turn_shape = t.map turn_shape ++ g a) :
    ∀ (l : List α) (t : List Entry),
      (l.foldl f t).map turn_shape = t.map turn_shape ++ l.flatMap g := by
  intro l
  induction l with
  | nil =>
    intro t
    simp
  | cons a l ih =>
    intro t
    rw [List.foldl_cons, ih, hf, List.flatMap_cons, List.append_assoc]

theorem run_round_shape (cfg : Config) (gen : String → List Message → String)
    (sfn : Option (List Message → Option String)) (q ln : String) (rnd : Nat)
    (t : List Entry) :
    (run_round cfg gen sfn q ln rnd t).map turn_shape =
      t.map turn_shape ++
        (List.range cfg.instances).map (fun i => (cfg.models.getD i "", rnd)) := by
  unfold run_round
  rw [foldl_shape _ (fun idx => [(cfg.models.getD idx "", rnd)])
    (fun t idx => agent_turn_shape cfg gen sfn q ln rnd idx t)]
  congr 1
  have hsingle : ∀ (l : List Nat), (l.flatMap fun idx => [(cfg.models.getD idx "", rnd)]) =
      l.map (fun i => (cfg.models.getD i "", rnd)) := by
    intro l
    induction l with
    | nil => rfl
    | cons a l ih => rw [List.flatMap_cons, ih]; rfl
  exact hsingle _

/-- C1: with R ≥ 1 rounds, N ≥ 1 agents and at least N configured models,
a run starts from a cleared transcript and produces the entries
(model i, round r) for every round r = 1..R and agent index i = 0..N-1 in
ascending order, followed by one synthesis entry with round R + 1 and the
first configured model — R·N + 1 entries in all; the run returns the
synthesis entry's content; and the result is independent of the prior
session state, so the structure is identical on any two runs with the
same configuration. -/
theorem c1_run_structure (cfg : Config) (gen : String → List Message → String)
    (sfn : Option (List Message → Option String)) (query : String) (prior : List Entry)
    (hR : 1 ≤ cfg.rounds) (hN : 1 ≤ cfg.instances) (hM : cfg.instances ≤ cfg.models.length) :
    ((run cfg gen sfn query prior).1.map turn_shape =
      ((List.range cfg.rounds).flatMap
        (fun r => (List.range cfg.instances).map (fun i => (cfg.models.getD i "", r + 1)))) ++
        [(cfg.models.getD 0 "", cfg.rounds + 1)]) ∧
    ((run cfg gen sfn query prior).1.length = cfg.rounds * cfg.instances + 1) ∧
    ((run cfg gen sfn query prior).1.getLast? =
      some ⟨cfg.models.getD 0 "", cfg.rounds + 1, (run cfg gen sfn query prior).2⟩) ∧
    (∀ prior2, run cfg gen sfn query prior2 = run cfg gen sfn query prior) := by
  have hshape : (run cfg gen sfn query prior).1.map turn_shape =
      ((List.range cfg.rounds).flatMap
        (fun r => (List.range cfg.instances).map (fun i => (cfg.models.getD i "", r + 1)))) ++
        [(cfg.models.getD 0 "", cfg.rounds + 1)] := by
    simp only [run]
    rw [List.map_append]
    rw [foldl_shape _ (fun r => (List.range cfg.instances).map
        (fun i => (cfg.models.getD i "", r + 1)))
      (fun t r => run_round_shape cfg gen sfn query (lang_note_for (detect_language query)) (r + 1) t)]
    rfl
  refine ⟨hshape, ?_, ?_, fun prior2 => rfl⟩
  · have hlen := congrArg List.length hshape
    rw [List.length_map] at hlen
    rw [hlen]
    rw [List.length_append, List.flatMap_def, List.length_flatten, List.map_map]
    have hfun : (List.length ∘ fun r : Nat =>
        List.map (fun i => (cfg.models.getD i "", r + 1)) (List.range cfg.instances)) =
        fun _ : Nat => cfg.instances := by
      funext r
      simp
    rw [hfun, List.map_const', List.length_range, List.sum_replicate, smul_eq_mul]
    simp
  · simp only [run]
    exact List.getLast?_concat _

/-- C1, witness: the demo configuration (2 agents, 1 round) yields
exactly 2·1 + 1 = 3 transcript entries. -/
theorem c1_run_structure_witness :
    (run demo_cfg demo_gen none "hi" []).1.length = demo_cfg.rounds * demo_cfg.instances + 1 :=
  (c1_run_structure demo_cfg demo_gen none "hi" []
    (by decide) (by decide) (by decide)).2.1

end Cafm
